import Mathlib

/-!
# MultiSender batch-disbursement contracts: shallow embedding and verification

This file embeds the two Stylus Rust contract variants of the repository:

* `src/packages/stylus/MultiSender/src/lib.rs`  — typed-error variant
  (namespace `MultiSender` below),
* `src/packages/stylus/multi-sender/src/lib.rs` — silent no-op variant
  (namespace `Multi_sender` below).

Machine integers: the contracts compute on `U256` values from the alloy
`ruint` library, whose `+`/`-`/`+=` operators WRAP modulo `2^256`
(`impl_bin_op!(Add, add, AddAssign, add_assign, wrapping_add)`); they do
not trap on overflow.  We model a `U256` as a `Nat` and make the wrap
explicit with `wrapAdd`/`wrapSub`.  The in-loop success counter is a Rust
`u32` whose increments wrap modulo `2^32` in release builds; we keep that
modulus at each increment.

The VM boundary (`msg_sender`, `msg_value`, `transfer_eth`,
`call_contract`, `balance`) is modelled by an `Env` record: the outcome of
the `i`-th in-loop `transfer_eth` is `eth_transfer_ok i`, the byte string
returned by the `i`-th token `call_contract` (or `none` when the call
itself fails) is `call_contract i`, and `refund_ok` is the outcome of the
trailing refund `transfer_eth`, which the code discards (`let _ = ...`)
and which our embedding therefore never reads.  Each embedded entry point
returns, besides the contract state, the ordered list of emitted events
and the ordered list of outgoing value-moving attempts
(`transfer_eth` calls for ETH mode and `emergency_withdraw`;
`transferFrom` remote calls for token mode), so that statements of the
form "no transfer is attempted" are about the embedding itself.
-/

/-- `2^256`, the modulus of the EVM word / alloy `U256`. -/
def U256MOD : Nat := 2 ^ 256

/-- `2^32`, the modulus of the Rust `u32` loop counter. -/
def U32MOD : Nat := 2 ^ 32

/-- Wrapping `U256` addition, the semantics of alloy `U256`'s `+=`. -/
def wrapAdd (a b : Nat) : Nat := (a + b) % U256MOD

/-- Wrapping `U256` subtraction, the semantics of alloy `U256`'s `-`
(for operands below `2^256`). -/
def wrapSub (a b : Nat) : Nat := if b ≤ a then a - b else a + U256MOD - b

/-- The `Error` enum of `MultiSender/src/lib.rs` (the typed-error variant).
The two ownable errors carry the offending account, as in
`OwnableUnauthorizedAccount` / `OwnableInvalidOwner`. -/
inductive Error where
  | UnauthorizedAccount (account : Nat)
  | InvalidOwner (owner : Nat)
  | ArrayLengthMismatch
  | InsufficientBalance
  | TransferFailed
  | InvalidRecipient
  | InvalidAmount
deriving DecidableEq, Repr

/-- The events declared in both contract files.  Addresses and `U256`
values are embedded as `Nat`; the failure reason is the literal string the
contract logs. -/
inductive Event where
  | TransferSuccess (recipient amount : Nat)
  | TransferFailed (recipient amount : Nat) (reason : String)
  | BatchEthTransfer (sender totalAmount recipientCount : Nat)
  | BatchTokenTransfer (sender token totalAmount recipientCount : Nat)
deriving DecidableEq, Repr

/-- The persistent storage of either contract: the owner address
(for the first variant this is the `Ownable` component's `_owner`), the
two global counters, and the per-user transaction-count mapping
(a total function with default `0`, as a Solidity mapping). -/
structure MSState where
  owner : Nat
  total_transactions : Nat
  total_recipients : Nat
  user_transaction_count : Nat → Nat

/-- The VM environment of one call. `eth_transfer_ok i` is the result of
the `transfer_eth` issued at loop index `i`; `call_contract i` is the
returned byte string of the token `call_contract` at loop index `i`
(`none` = the remote call failed); `refund_ok` is the result of the
refund `transfer_eth`, discarded by the code and never read here. -/
structure Env where
  msg_sender : Nat
  msg_value : Nat
  contract_balance : Nat
  eth_transfer_ok : Nat → Bool
  refund_ok : Bool
  call_contract : Nat → Option (List Nat)

/-- The `total_amount` accumulation loop shared by both batch functions:
walk the amounts in order, fail with `InvalidAmount` at the first zero
amount, otherwise accumulate with wrapping `U256` addition
(`total_amount += *amount`). -/
def sumAmounts : List Nat → Nat → Except Error Nat
  | [], total => .ok total
  | a :: rest, total =>
    if a = 0 then .error .InvalidAmount
    else sumAmounts rest (wrapAdd total a)

/-- alloy's `bool::abi_decode(&result, true)` at the remote-call boundary:
a valid encoding is exactly 32 bytes, the first 31 zero, the last byte
`0` (false) or `1` (true); anything else fails to decode. -/
def abi_decode_bool (bytes : List Nat) : Option Bool :=
  if bytes.length == 32 && (bytes.take 31).all (· == 0) then
    match bytes.getLast? with
    | some 0 => some false
    | some 1 => some true
    | _ => none
  else none

/-- The ETH transfer loop, identical in both contract files
(`MultiSender` lines 150–179, `multi-sender` lines 117–146): for the
entry at loop index `i`, a zero recipient logs
`TransferFailed(..., "Invalid recipient address")` and moves nothing; a
non-zero recipient gets a `transfer_eth` attempt whose outcome is
`env.eth_transfer_ok i`.  Returns the final `u32` success counter
(increments wrap mod `2^32`), the logged events in order, and the
attempted `transfer_eth` calls `(recipient, amount)` in order. -/
def ethLoop (env : Env) : Nat → List (Nat × Nat) → Nat × List Event × List (Nat × Nat)
  | _, [] => (0, [], [])
  | i, (r, a) :: rest =>
    let rec_ := ethLoop env (i + 1) rest
    if r = 0 then
      (rec_.1, .TransferFailed r a "Invalid recipient address" :: rec_.2.1, rec_.2.2)
    else if env.eth_transfer_ok i then
      ((rec_.1 + 1) % U32MOD, .TransferSuccess r a :: rec_.2.1, (r, a) :: rec_.2.2)
    else
      (rec_.1, .TransferFailed r a "Transfer failed" :: rec_.2.1, (r, a) :: rec_.2.2)

/-- The token transfer loop of `MultiSender` lines 239–290: a zero
recipient logs the invalid-recipient failure without any remote call; a
non-zero recipient gets one `transferFrom` remote call, classified by the
call outcome and the decoding of its returned bytes.  Returns the final
`u32` success counter, the events in order, and the attempted remote
`transferFrom` calls `(recipient, amount)` in order. -/
def tokenLoop (env : Env) : Nat → List (Nat × Nat) → Nat × List Event × List (Nat × Nat)
  | _, [] => (0, [], [])
  | i, (r, a) :: rest =>
    let rec_ := tokenLoop env (i + 1) rest
    if r = 0 then
      (rec_.1, .TransferFailed r a "Invalid recipient address" :: rec_.2.1, rec_.2.2)
    else
      match env.call_contract i with
      | some result =>
        match abi_decode_bool result with
        | some true =>
          ((rec_.1 + 1) % U32MOD, .TransferSuccess r a :: rec_.2.1, (r, a) :: rec_.2.2)
        | some false =>
          (rec_.1, .TransferFailed r a "Token transfer returned false" :: rec_.2.1,
            (r, a) :: rec_.2.2)
        | none =>
          (rec_.1, .TransferFailed r a "Failed to decode transfer result" :: rec_.2.1,
            (r, a) :: rec_.2.2)
      | none =>
        (rec_.1, .TransferFailed r a "Token contract call failed" :: rec_.2.1,
          (r, a) :: rec_.2.2)

/-- The post-loop statistics update, identical in both files and both
modes: `total_transactions += 1`, `total_recipients += successful`,
`user_transaction_count[sender] += 1` (all wrapping `U256` adds). -/
def updateStats (s : MSState) (sender succ : Nat) : MSState :=
  { s with
    total_transactions := wrapAdd s.total_transactions 1
    total_recipients := wrapAdd s.total_recipients succ
    user_transaction_count := fun u =>
      if u = sender then wrapAdd (s.user_transaction_count sender) 1
      else s.user_transaction_count u }

/-- Result of one embedded entry-point call: the Rust `Result` value, the
post-call storage, the emitted events in order, and the outgoing
transfer attempts `(recipient, amount)` in order. -/
structure BatchOut where
  result : Except Error Unit
  state : MSState
  events : List Event
  transfers : List (Nat × Nat)

namespace MultiSender

/-- `batch_send_eth` of `MultiSender/src/lib.rs` (lines 119–205):
array-length and non-emptiness validation, zero-amount check fused with
the wrapping total accumulation, `msg_value` sufficiency check, the
transfer loop, the statistics update, the aggregate event, and the
best-effort refund of `msg_value - total_amount` (wrapping subtraction)
whose `transfer_eth` result is discarded. -/
def batch_send_eth (env : Env) (s : MSState) (recipients amounts : List Nat) : BatchOut :=
  if recipients.length ≠ amounts.length then ⟨.error .ArrayLengthMismatch, s, [], []⟩
  else if recipients.isEmpty then ⟨.error .InvalidRecipient, s, [], []⟩
  else
    match sumAmounts amounts 0 with
    | .error e => ⟨.error e, s, [], []⟩
    | .ok total_amount =>
      if env.msg_value < total_amount then ⟨.error .InsufficientBalance, s, [], []⟩
      else
        let loop := ethLoop env 0 (recipients.zip amounts)
        let s' := updateStats s env.msg_sender loop.1
        let evs := loop.2.1 ++ [.BatchEthTransfer env.msg_sender total_amount loop.1]
        let excess := wrapSub env.msg_value total_amount
        let trs := if excess > 0 then loop.2.2 ++ [(env.msg_sender, excess)] else loop.2.2
        ⟨.ok (), s', evs, trs⟩

/-- `batch_send_token` of `MultiSender/src/lib.rs` (lines 208–311):
validation (including the null-token check), the wrapping total
accumulation, the `transferFrom` loop, the statistics update and the
aggregate event; no value-sufficiency check and no refund. -/
def batch_send_token (env : Env) (s : MSState) (token : Nat) (recipients amounts : List Nat) :
    BatchOut :=
  if recipients.length ≠ amounts.length then ⟨.error .ArrayLengthMismatch, s, [], []⟩
  else if recipients.isEmpty then ⟨.error .InvalidRecipient, s, [], []⟩
  else if token = 0 then ⟨.error .InvalidRecipient, s, [], []⟩
  else
    match sumAmounts amounts 0 with
    | .error e => ⟨.error e, s, [], []⟩
    | .ok total_amount =>
      let loop := tokenLoop env 0 (recipients.zip amounts)
      let s' := updateStats s env.msg_sender loop.1
      let evs := loop.2.1 ++ [.BatchTokenTransfer env.msg_sender token total_amount loop.1]
      ⟨.ok (), s', evs, loop.2.2⟩

/-- `emergency_withdraw` of `MultiSender/src/lib.rs` (lines 314–324):
`only_owner` gate (errors with `OwnableUnauthorizedAccount(sender)` for a
non-owner caller), then a single `transfer_eth` of the full contract
balance to the owner when that balance is positive; the transfer result
is discarded. -/
def emergency_withdraw (env : Env) (s : MSState) : BatchOut :=
  if env.msg_sender ≠ s.owner then ⟨.error (.UnauthorizedAccount env.msg_sender), s, [], []⟩
  else if env.contract_balance > 0 then ⟨.ok (), s, [], [(s.owner, env.contract_balance)]⟩
  else ⟨.ok (), s, [], []⟩

end MultiSender

/-- Result of one embedded call of the silent no-op variant, which
returns `()`: post-call storage, events, and transfer attempts. -/
structure BatchOut2 where
  state : MSState
  events : List Event
  transfers : List (Nat × Nat)

namespace Multi_sender

/-- `batch_send_eth` of `multi-sender/src/lib.rs` (lines 86–170): the
same computation as `MultiSender.batch_send_eth`, but every failed
precondition silently returns `()` with no state change instead of
surfacing an error. -/
def batch_send_eth (env : Env) (s : MSState) (recipients amounts : List Nat) : BatchOut2 :=
  if recipients.length ≠ amounts.length then ⟨s, [], []⟩
  else if recipients.isEmpty then ⟨s, [], []⟩
  else
    match sumAmounts amounts 0 with
    | .error _ => ⟨s, [], []⟩
    | .ok total_amount =>
      if env.msg_value < total_amount then ⟨s, [], []⟩
      else
        let loop := ethLoop env 0 (recipients.zip amounts)
        let s' := updateStats s env.msg_sender loop.1
        let evs := loop.2.1 ++ [.BatchEthTransfer env.msg_sender total_amount loop.1]
        let excess := wrapSub env.msg_value total_amount
        let trs := if excess > 0 then loop.2.2 ++ [(env.msg_sender, excess)] else loop.2.2
        ⟨s', evs, trs⟩

/-- `emergency_withdraw` of `multi-sender/src/lib.rs` (lines 173–185):
a non-owner caller silently returns; the owner triggers one
`transfer_eth` of the full contract balance to the owner when that
balance is positive. -/
def emergency_withdraw (env : Env) (s : MSState) : BatchOut2 :=
  if env.msg_sender ≠ s.owner then ⟨s, [], []⟩
  else if env.contract_balance > 0 then ⟨s, [], [(s.owner, env.contract_balance)]⟩
  else ⟨s, [], []⟩

end Multi_sender

/-! ## Helper characterizations of the embedded code -/

/-- Number of loop entries that yield a `TransferSuccess` in the ETH
loop starting at index `i`: non-zero recipient and a succeeding
`transfer_eth`. -/
def ethSuccCount (env : Env) : Nat → List (Nat × Nat) → Nat
  | _, [] => 0
  | i, (r, _) :: rest =>
    (if r ≠ 0 ∧ env.eth_transfer_ok i then 1 else 0) + ethSuccCount env (i + 1) rest

/-- Number of loop entries that yield a `TransferSuccess` in the token
loop starting at index `i`: non-zero recipient, succeeding remote call,
and returned bytes decoding to `true`. -/
def tokenSuccCount (env : Env) : Nat → List (Nat × Nat) → Nat
  | _, [] => 0
  | i, (r, _) :: rest =>
    (if r ≠ 0 ∧ (env.call_contract i).bind abi_decode_bool = some true then 1 else 0) +
      tokenSuccCount env (i + 1) rest

/-- The single event the ETH loop logs for the entry `(r, a)` at loop
index `i`. -/
def ethEventAt (env : Env) (i r a : Nat) : Event :=
  if r = 0 then .TransferFailed r a "Invalid recipient address"
  else if env.eth_transfer_ok i then .TransferSuccess r a
  else .TransferFailed r a "Transfer failed"

/-- The single event the token loop logs for the entry `(r, a)` at loop
index `i`, following the response classification of the remote
`transferFrom` call. -/
def tokenEventAt (env : Env) (i r a : Nat) : Event :=
  if r = 0 then .TransferFailed r a "Invalid recipient address"
  else
    match env.call_contract i with
    | none => .TransferFailed r a "Token contract call failed"
    | some bytes =>
      match abi_decode_bool bytes with
      | some true => .TransferSuccess r a
      | some false => .TransferFailed r a "Token transfer returned false"
      | none => .TransferFailed r a "Failed to decode transfer result"

/-- A 32-byte ABI word holding the value `b` in its last byte. -/
def abiWord (b : Nat) : List Nat := List.replicate 31 0 ++ [b]

/-- Concrete VM environment for evaluating the embedding: sender `7`,
supplied value `100`, contract balance `50`; the in-loop `transfer_eth`
succeeds exactly at even loop indices; the refund transfer fails; the
remote token call returns `true` at index 0, `false` at index 1,
undecodable bytes at index 2, and itself fails from index 3 on. -/
def env0 : Env :=
  ⟨7, 100, 50, fun i => i % 2 == 0, false,
    fun i =>
      if i = 0 then some (abiWord 1)
      else if i = 1 then some (abiWord 0)
      else if i = 2 then some [7, 7]
      else none⟩

/-- Like `env0` but the caller is the owner account `1` of `s0`. -/
def env1 : Env := ⟨1, 100, 50, fun i => i % 2 == 0, false, fun _ => none⟩

/-- Concrete storage state for evaluating the embedding: owner `1`,
`total_transactions = 10`, `total_recipients = 20`, empty per-user map. -/
def s0 : MSState := ⟨1, 10, 20, fun _ => 0⟩

theorem sumAmounts_err_eq (l : List Nat) :
    ∀ acc e, sumAmounts l acc = .error e → e = .InvalidAmount := by
  induction l with
  | nil => intro acc e h; simp [sumAmounts] at h
  | cons a rest ih =>
    intro acc e h
    by_cases ha : a = 0
    · simp [sumAmounts, ha] at h; exact h.symm
    · simp [sumAmounts, ha] at h; exact ih _ _ h

theorem sumAmounts_error_of_mem_zero (l : List Nat) (hz : 0 ∈ l) :
    ∀ acc, sumAmounts l acc = .error .InvalidAmount := by
  induction l with
  | nil => cases hz
  | cons a rest ih =>
    intro acc
    by_cases ha : a = 0
    · simp [sumAmounts, ha]
    · rcases List.mem_cons.mp hz with h0 | h0
      · exact absurd h0.symm ha
      · simp [sumAmounts, ha]; exact ih h0 _

theorem sumAmounts_eq_sum (l : List Nat) :
    ∀ acc, (∀ a ∈ l, a ≠ 0) → acc + l.sum < U256MOD →
      sumAmounts l acc = .ok (acc + l.sum) := by
  induction l with
  | nil => intro acc _ _; simp [sumAmounts]
  | cons a rest ih =>
    intro acc hnz hbound
    have ha : a ≠ 0 := hnz a (List.mem_cons_self a rest)
    have hsum : (a :: rest).sum = a + rest.sum := List.sum_cons
    rw [hsum] at hbound
    have hlt : acc + a < U256MOD := by omega
    simp only [sumAmounts, if_neg ha]
    rw [show wrapAdd acc a = acc + a from Nat.mod_eq_of_lt hlt]
    rw [ih (acc + a) (fun x hx => hnz x (List.mem_cons_of_mem a hx)) (by omega)]
    congr 1
    omega

theorem sumAmounts_mem_zero_of_error (l : List Nat) :
    ∀ acc e, sumAmounts l acc = .error e → 0 ∈ l := by
  induction l with
  | nil => intro acc e h; simp [sumAmounts] at h
  | cons a rest ih =>
    intro acc e h
    by_cases ha : a = 0
    · simp [ha]
    · simp [sumAmounts, ha] at h
      exact List.mem_cons_of_mem a (ih _ _ h)

theorem ethLoop_count_eq (env : Env) (pairs : List (Nat × Nat)) :
    ∀ i, (ethLoop env i pairs).1 = ethSuccCount env i pairs % U32MOD := by
  induction pairs with
  | nil => intro i; simp [ethLoop, ethSuccCount]
  | cons p rest ih =>
    intro i
    obtain ⟨r, a⟩ := p
    by_cases hr : r = 0
    · simp [ethLoop, ethSuccCount, hr, ih]
    · by_cases hok : env.eth_transfer_ok i
      · simp only [ethLoop, ethSuccCount, if_neg hr, if_pos hok, ih,
          if_pos (And.intro hr hok)]
        conv_rhs => rw [Nat.add_comm 1, Nat.add_mod]
        rw [show (1 : Nat) % U32MOD = 1 from Nat.mod_eq_of_lt (by norm_num [U32MOD])]
      · simp [ethLoop, ethSuccCount, hr, hok, ih]

theorem ethSuccCount_le_length (env : Env) (pairs : List (Nat × Nat)) :
    ∀ i, ethSuccCount env i pairs ≤ pairs.length := by
  induction pairs with
  | nil => intro i; simp [ethSuccCount]
  | cons p rest ih =>
    intro i
    obtain ⟨r, a⟩ := p
    simp only [ethSuccCount, List.length_cons]
    have := ih (i + 1)
    split <;> omega

theorem ethLoop_count_le_length (env : Env) (pairs : List (Nat × Nat)) (i : Nat) :
    (ethLoop env i pairs).1 ≤ pairs.length := by
  rw [ethLoop_count_eq]
  exact le_trans (Nat.mod_le _ _) (ethSuccCount_le_length env pairs i)

theorem ethLoop_events_get (env : Env) (pairs : List (Nat × Nat)) :
    ∀ i k r a, pairs.get? k = some (r, a) →
      (ethLoop env i pairs).2.1.get? k = some (ethEventAt env (i + k) r a) := by
  induction pairs with
  | nil => intro i k r a h; simp at h
  | cons p rest ih =>
    intro i k r a h
    cases k with
    | zero =>
      rw [List.get?_cons_zero, Option.some.injEq] at h
      subst h
      by_cases hr0 : r = 0
      · simp [ethLoop, ethEventAt, hr0]
      · by_cases hok : env.eth_transfer_ok i
        · simp [ethLoop, ethEventAt, hr0, hok]
        · simp [ethLoop, ethEventAt, hr0, hok]
    | succ k' =>
      obtain ⟨r', a'⟩ := p
      simp only [List.get?_cons_succ] at h
      have hrec := ih (i + 1) k' r a h
      have harith : i + 1 + k' = i + (k' + 1) := by omega
      rw [harith] at hrec
      by_cases hr0 : r' = 0
      · simpa [ethLoop, hr0] using hrec
      · by_cases hok : env.eth_transfer_ok i
        · simpa [ethLoop, hr0, hok] using hrec
        · simpa [ethLoop, hr0, hok] using hrec

theorem ethLoop_events_length (env : Env) (pairs : List (Nat × Nat)) :
    ∀ i, (ethLoop env i pairs).2.1.length = pairs.length := by
  induction pairs with
  | nil => intro i; simp [ethLoop]
  | cons p rest ih =>
    intro i
    obtain ⟨r, a⟩ := p
    by_cases hr : r = 0
    · simp [ethLoop, hr, ih]
    · by_cases hok : env.eth_transfer_ok i <;> simp [ethLoop, hr, hok, ih]

theorem ethLoop_transfers_ne_zero (env : Env) (pairs : List (Nat × Nat)) :
    ∀ i p, p ∈ (ethLoop env i pairs).2.2 → p.1 ≠ 0 := by
  induction pairs with
  | nil => intro i p h; simp [ethLoop] at h
  | cons q rest ih =>
    intro i p h
    obtain ⟨r, a⟩ := q
    by_cases hr : r = 0
    · simp only [ethLoop, if_pos hr] at h
      exact ih (i + 1) p h
    · by_cases hok : env.eth_transfer_ok i
      · simp only [ethLoop, if_neg hr, if_pos hok, List.mem_cons] at h
        rcases h with h | h
        · rw [h]; exact hr
        · exact ih (i + 1) p h
      · simp only [ethLoop, if_neg hr, if_pos hok, if_neg hok, List.mem_cons] at h
        rcases h with h | h
        · rw [h]; exact hr
        · exact ih (i + 1) p h

theorem u32_mod_step (x : Nat) : (x % U32MOD + 1) % U32MOD = (x + 1) % U32MOD := by
  conv_rhs => rw [Nat.add_mod]
  norm_num [U32MOD]

theorem tokenLoop_count_eq (env : Env) (pairs : List (Nat × Nat)) :
    ∀ i, (tokenLoop env i pairs).1 = tokenSuccCount env i pairs % U32MOD := by
  induction pairs with
  | nil => intro i; simp [tokenLoop, tokenSuccCount]
  | cons p rest ih =>
    intro i
    obtain ⟨r, a⟩ := p
    by_cases hr : r = 0
    · simp [tokenLoop, tokenSuccCount, hr, ih]
    · cases hc : env.call_contract i with
      | none => simp [tokenLoop, tokenSuccCount, hr, hc, ih]
      | some bytes =>
        cases hd : abi_decode_bool bytes with
        | none => simp [tokenLoop, tokenSuccCount, hr, hc, hd, ih]
        | some b =>
          cases b with
          | false => simp [tokenLoop, tokenSuccCount, hr, hc, hd, ih]
          | true =>
            simp only [tokenLoop, if_neg hr, hc, hd]
            rw [ih (i + 1)]
            have hsucc : tokenSuccCount env i ((r, a) :: rest) =
                tokenSuccCount env (i + 1) rest + 1 := by
              simp [tokenSuccCount, hr, hc, hd, Nat.add_comm]
            rw [hsucc]
            exact u32_mod_step _

theorem tokenSuccCount_le_length (env : Env) (pairs : List (Nat × Nat)) :
    ∀ i, tokenSuccCount env i pairs ≤ pairs.length := by
  induction pairs with
  | nil => intro i; simp [tokenSuccCount]
  | cons p rest ih =>
    intro i
    obtain ⟨r, a⟩ := p
    simp only [tokenSuccCount, List.length_cons]
    have := ih (i + 1)
    split <;> omega

theorem tokenLoop_count_le_length (env : Env) (pairs : List (Nat × Nat)) (i : Nat) :
    (tokenLoop env i pairs).1 ≤ pairs.length := by
  rw [tokenLoop_count_eq]
  exact le_trans (Nat.mod_le _ _) (tokenSuccCount_le_length env pairs i)

theorem tokenLoop_events_get (env : Env) (pairs : List (Nat × Nat)) :
    ∀ i k r a, pairs.get? k = some (r, a) →
      (tokenLoop env i pairs).2.1.get? k = some (tokenEventAt env (i + k) r a) := by
  induction pairs with
  | nil => intro i k r a h; simp at h
  | cons p rest ih =>
    intro i k r a h
    cases k with
    | zero =>
      rw [List.get?_cons_zero, Option.some.injEq] at h
      subst h
      by_cases hr0 : r = 0
      · simp [tokenLoop, tokenEventAt, hr0]
      · cases hc : env.call_contract i with
        | none => simp [tokenLoop, tokenEventAt, hr0, hc]
        | some bytes =>
          cases hd : abi_decode_bool bytes with
          | none => simp [tokenLoop, tokenEventAt, hr0, hc, hd]
          | some b => cases b <;> simp [tokenLoop, tokenEventAt, hr0, hc, hd]
    | succ k' =>
      obtain ⟨r', a'⟩ := p
      simp only [List.get?_cons_succ] at h
      have hrec := ih (i + 1) k' r a h
      have harith : i + 1 + k' = i + (k' + 1) := by omega
      rw [harith] at hrec
      by_cases hr0 : r' = 0
      · simpa [tokenLoop, hr0] using hrec
      · cases hc : env.call_contract i with
        | none => simpa [tokenLoop, hr0, hc] using hrec
        | some bytes =>
          cases hd : abi_decode_bool bytes with
          | none => simpa [tokenLoop, hr0, hc, hd] using hrec
          | some b => cases b <;> simpa [tokenLoop, hr0, hc, hd] using hrec

theorem tokenLoop_events_length (env : Env) (pairs : List (Nat × Nat)) :
    ∀ i, (tokenLoop env i pairs).2.1.length = pairs.length := by
  induction pairs with
  | nil => intro i; simp [tokenLoop]
  | cons p rest ih =>
    intro i
    obtain ⟨r, a⟩ := p
    by_cases hr : r = 0
    · simp [tokenLoop, hr, ih]
    · cases hc : env.call_contract i with
      | none => simp [tokenLoop, hr, hc, ih]
      | some bytes =>
        cases hd : abi_decode_bool bytes with
        | none => simp [tokenLoop, hr, hc, hd, ih]
        | some b => cases b <;> simp [tokenLoop, hr, hc, hd, ih]

theorem tokenLoop_calls_ne_zero (env : Env) (pairs : List (Nat × Nat)) :
    ∀ i p, p ∈ (tokenLoop env i pairs).2.2 → p.1 ≠ 0 := by
  induction pairs with
  | nil => intro i p h; simp [tokenLoop] at h
  | cons q rest ih =>
    intro i p h
    obtain ⟨r, a⟩ := q
    by_cases hr : r = 0
    · simp only [tokenLoop, if_pos hr] at h
      exact ih (i + 1) p h
    · cases hc : env.call_contract i with
      | none =>
        simp only [tokenLoop, if_neg hr, hc, List.mem_cons] at h
        rcases h with h | h
        · rw [h]; exact hr
        · exact ih (i + 1) p h
      | some bytes =>
        cases hd : abi_decode_bool bytes with
        | none =>
          simp only [tokenLoop, if_neg hr, hc, hd, List.mem_cons] at h
          rcases h with h | h
          · rw [h]; exact hr
          · exact ih (i + 1) p h
        | some b =>
          cases b with
          | false =>
            simp only [tokenLoop, if_neg hr, hc, hd, List.mem_cons] at h
            rcases h with h | h
            · rw [h]; exact hr
            · exact ih (i + 1) p h
          | true =>
            simp only [tokenLoop, if_neg hr, hc, hd, List.mem_cons] at h
            rcases h with h | h
            · rw [h]; exact hr
            · exact ih (i + 1) p h

theorem multiSender_eth_ok_shape (env : Env) (s : MSState) (recipients amounts : List Nat)
    (t : Nat) (hlen : recipients.length = amounts.length) (hne : recipients ≠ [])
    (hsum : sumAmounts amounts 0 = .ok t) (hval : ¬ env.msg_value < t) :
    MultiSender.batch_send_eth env s recipients amounts =
      ⟨.ok (), updateStats s env.msg_sender (ethLoop env 0 (recipients.zip amounts)).1,
        (ethLoop env 0 (recipients.zip amounts)).2.1 ++
          [.BatchEthTransfer env.msg_sender t (ethLoop env 0 (recipients.zip amounts)).1],
        if wrapSub env.msg_value t > 0 then
          (ethLoop env 0 (recipients.zip amounts)).2.2 ++
            [(env.msg_sender, wrapSub env.msg_value t)]
        else (ethLoop env 0 (recipients.zip amounts)).2.2⟩ := by
  unfold MultiSender.batch_send_eth
  rw [if_neg (not_ne_iff.mpr hlen), if_neg (by simp [List.isEmpty_iff, hne])]
  simp only [hsum]
  rw [if_neg hval]

theorem multiSender_eth_cases (env : Env) (s : MSState) (recipients amounts : List Nat) :
    (∃ e, MultiSender.batch_send_eth env s recipients amounts = ⟨.error e, s, [], []⟩) ∨
    (∃ t, recipients.length = amounts.length ∧ recipients ≠ [] ∧
      sumAmounts amounts 0 = .ok t ∧ ¬ env.msg_value < t) := by
  by_cases h1 : recipients.length ≠ amounts.length
  · exact .inl ⟨.ArrayLengthMismatch, by unfold MultiSender.batch_send_eth; rw [if_pos h1]⟩
  · by_cases h2 : recipients.isEmpty
    · exact .inl ⟨.InvalidRecipient, by
        unfold MultiSender.batch_send_eth; rw [if_neg h1, if_pos h2]⟩
    · cases hs : sumAmounts amounts 0 with
      | error e =>
        exact .inl ⟨e, by
          unfold MultiSender.batch_send_eth
          rw [if_neg h1, if_neg h2]
          simp only [hs]⟩
      | ok t =>
        by_cases h3 : env.msg_value < t
        · exact .inl ⟨.InsufficientBalance, by
            unfold MultiSender.batch_send_eth
            rw [if_neg h1, if_neg h2]
            simp only [hs]
            rw [if_pos h3]⟩
        · exact .inr ⟨t, not_not.mp h1, fun hnil => h2 (by simp [hnil]), rfl, h3⟩

theorem multiSender_token_ok_shape (env : Env) (s : MSState) (token : Nat)
    (recipients amounts : List Nat) (t : Nat)
    (hlen : recipients.length = amounts.length) (hne : recipients ≠ [])
    (htok : token ≠ 0) (hsum : sumAmounts amounts 0 = .ok t) :
    MultiSender.batch_send_token env s token recipients amounts =
      ⟨.ok (), updateStats s env.msg_sender (tokenLoop env 0 (recipients.zip amounts)).1,
        (tokenLoop env 0 (recipients.zip amounts)).2.1 ++
          [.BatchTokenTransfer env.msg_sender token t
            (tokenLoop env 0 (recipients.zip amounts)).1],
        (tokenLoop env 0 (recipients.zip amounts)).2.2⟩ := by
  unfold MultiSender.batch_send_token
  rw [if_neg (not_ne_iff.mpr hlen), if_neg (by simp [List.isEmpty_iff, hne]), if_neg htok]
  simp only [hsum]

theorem multiSender_token_cases (env : Env) (s : MSState) (token : Nat)
    (recipients amounts : List Nat) :
    (∃ e, MultiSender.batch_send_token env s token recipients amounts = ⟨.error e, s, [], []⟩) ∨
    (∃ t, recipients.length = amounts.length ∧ recipients ≠ [] ∧ token ≠ 0 ∧
      sumAmounts amounts 0 = .ok t) := by
  by_cases h1 : recipients.length ≠ amounts.length
  · exact .inl ⟨.ArrayLengthMismatch, by
      unfold MultiSender.batch_send_token; rw [if_pos h1]⟩
  · by_cases h2 : recipients.isEmpty
    · exact .inl ⟨.InvalidRecipient, by
        unfold MultiSender.batch_send_token; rw [if_neg h1, if_pos h2]⟩
    · by_cases h4 : token = 0
      · exact .inl ⟨.InvalidRecipient, by
          unfold MultiSender.batch_send_token; rw [if_neg h1, if_neg h2, if_pos h4]⟩
      · cases hs : sumAmounts amounts 0 with
        | error e =>
          exact .inl ⟨e, by
            unfold MultiSender.batch_send_token
            rw [if_neg h1, if_neg h2, if_neg h4]
            simp only [hs]⟩
        | ok t =>
          exact .inr ⟨t, not_not.mp h1, fun hnil => h2 (by simp [hnil]), h4, rfl⟩

theorem v2_eth_ok_shape (env : Env) (s : MSState) (recipients amounts : List Nat)
    (t : Nat) (hlen : recipients.length = amounts.length) (hne : recipients ≠ [])
    (hsum : sumAmounts amounts 0 = .ok t) (hval : ¬ env.msg_value < t) :
    Multi_sender.batch_send_eth env s recipients amounts =
      ⟨updateStats s env.msg_sender (ethLoop env 0 (recipients.zip amounts)).1,
        (ethLoop env 0 (recipients.zip amounts)).2.1 ++
          [.BatchEthTransfer env.msg_sender t (ethLoop env 0 (recipients.zip amounts)).1],
        if wrapSub env.msg_value t > 0 then
          (ethLoop env 0 (recipients.zip amounts)).2.2 ++
            [(env.msg_sender, wrapSub env.msg_value t)]
        else (ethLoop env 0 (recipients.zip amounts)).2.2⟩ := by
  unfold Multi_sender.batch_send_eth
  rw [if_neg (not_ne_iff.mpr hlen), if_neg (by simp [List.isEmpty_iff, hne])]
  simp only [hsum]
  rw [if_neg hval]

theorem v2_eth_noop (env : Env) (s : MSState) (recipients amounts : List Nat)
    (h : recipients.length ≠ amounts.length ∨ recipients = [] ∨
      (∃ e, sumAmounts amounts 0 = .error e) ∨
      (∃ t, sumAmounts amounts 0 = .ok t ∧ env.msg_value < t)) :
    Multi_sender.batch_send_eth env s recipients amounts = ⟨s, [], []⟩ := by
  by_cases h1 : recipients.length ≠ amounts.length
  · unfold Multi_sender.batch_send_eth; rw [if_pos h1]
  · by_cases h2 : recipients.isEmpty
    · unfold Multi_sender.batch_send_eth; rw [if_neg h1, if_pos h2]
    · cases hs : sumAmounts amounts 0 with
      | error e =>
        unfold Multi_sender.batch_send_eth
        rw [if_neg h1, if_neg h2]
        simp only [hs]
      | ok t =>
        by_cases h3 : env.msg_value < t
        · unfold Multi_sender.batch_send_eth
          rw [if_neg h1, if_neg h2]
          simp only [hs]
          rw [if_pos h3]
        · exfalso
          rcases h with h | h | ⟨e, he⟩ | ⟨t', ht, hv⟩
          · exact h1 h
          · exact h2 (by simp [h])
          · rw [hs] at he; cases he
          · rw [hs] at ht; cases ht; exact h3 hv

/-! ## Claim theorems -/

/-- **C1** (code bug): the claim says the precomputed total is the sum of
all amounts computed with overflow checking and that an overflowing sum
fails the whole call before any transfer.  The code instead accumulates
with wrapping `U256` addition: on the input
`recipients = [1, 2]`, `amounts = [2^256 - 1, 1]`, `msg_value = 0` the
total wraps to `0`, the value-sufficiency check passes, the call runs the
transfer loop (attempting both transfers) and returns `Ok(())`; the
silent variant behaves identically. -/
theorem batch_send_eth_overflow_wraps_and_proceeds :
    (MultiSender.batch_send_eth ⟨7, 0, 0, fun _ => true, false, fun _ => none⟩ s0
        [1, 2] [U256MOD - 1, 1]).result = .ok () ∧
    (MultiSender.batch_send_eth ⟨7, 0, 0, fun _ => true, false, fun _ => none⟩ s0
        [1, 2] [U256MOD - 1, 1]).transfers = [(1, U256MOD - 1), (2, 1)] ∧
    (Multi_sender.batch_send_eth ⟨7, 0, 0, fun _ => true, false, fun _ => none⟩ s0
        [1, 2] [U256MOD - 1, 1]).transfers = [(1, U256MOD - 1), (2, 1)] := by
  refine ⟨rfl, rfl, rfl⟩

/-- **C5**: for a validated batch (equal lengths, non-empty recipients,
no zero amount, so the total accumulation returns `t`), a supplied value
below `t` makes `batch_send_eth` of the typed variant fail with
`InsufficientBalance` before any transfer, event or state change; the
silent variant aborts at the same check with zero state change, no
transfer and no event. -/
theorem batch_send_eth_insufficient_value_rejects
    (env : Env) (s : MSState) (recipients amounts : List Nat) (t : Nat)
    (hlen : recipients.length = amounts.length) (hne : recipients ≠ [])
    (hsum : sumAmounts amounts 0 = .ok t) (hval : env.msg_value < t) :
    MultiSender.batch_send_eth env s recipients amounts =
      ⟨.error .InsufficientBalance, s, [], []⟩ ∧
    Multi_sender.batch_send_eth env s recipients amounts = ⟨s, [], []⟩ := by
  constructor
  · unfold MultiSender.batch_send_eth
    rw [if_neg (not_ne_iff.mpr hlen), if_neg (by simp [List.isEmpty_iff, hne])]
    simp only [hsum]
    rw [if_pos hval]
  · exact v2_eth_noop env s recipients amounts (.inr (.inr (.inr ⟨t, hsum, hval⟩)))

theorem batch_send_eth_insufficient_value_rejects_witness :
    MultiSender.batch_send_eth env0 s0 [3, 4] [60, 50] =
      ⟨.error .InsufficientBalance, s0, [], []⟩ ∧
    Multi_sender.batch_send_eth env0 s0 [3, 4] [60, 50] = ⟨s0, [], []⟩ :=
  batch_send_eth_insufficient_value_rejects env0 s0 [3, 4] [60, 50] 110
    rfl (by decide) rfl (by decide)

/-- **C3**: whenever a batch call fails one of its precondition checks —
the typed variant returns any `Err`, which happens exactly on the
precondition checks; the silent variant hits a length mismatch, empty
recipients, a zero amount, or an insufficient supplied value — the call
leaves the storage unchanged and has attempted no transfer and emitted no
event. -/
theorem batch_precondition_failure_zero_state_change :
    (∀ env s recipients amounts e,
      (MultiSender.batch_send_eth env s recipients amounts).result = .error e →
      MultiSender.batch_send_eth env s recipients amounts = ⟨.error e, s, [], []⟩) ∧
    (∀ env s token recipients amounts e,
      (MultiSender.batch_send_token env s token recipients amounts).result = .error e →
      MultiSender.batch_send_token env s token recipients amounts = ⟨.error e, s, [], []⟩) ∧
    (∀ env s recipients amounts,
      (recipients.length ≠ amounts.length ∨ recipients = [] ∨
        (∃ e, sumAmounts amounts 0 = .error e) ∨
        (∃ t, sumAmounts amounts 0 = .ok t ∧ env.msg_value < t)) →
      Multi_sender.batch_send_eth env s recipients amounts = ⟨s, [], []⟩) := by
  refine ⟨?_, ?_, ?_⟩
  · intro env s recipients amounts e h
    rcases multiSender_eth_cases env s recipients amounts with ⟨e', he⟩ | ⟨t, h1, h2, h3, h4⟩
    · have hee : e' = e := by
        rw [he] at h
        simpa using h
      rw [← hee]
      exact he
    · rw [multiSender_eth_ok_shape env s recipients amounts t h1 h2 h3 h4] at h
      simp at h
  · intro env s token recipients amounts e h
    rcases multiSender_token_cases env s token recipients amounts with
      ⟨e', he⟩ | ⟨t, h1, h2, h4, h3⟩
    · have hee : e' = e := by
        rw [he] at h
        simpa using h
      rw [← hee]
      exact he
    · rw [multiSender_token_ok_shape env s token recipients amounts t h1 h2 h4 h3] at h
      simp at h
  · exact v2_eth_noop

theorem batch_precondition_failure_zero_state_change_witness :
    MultiSender.batch_send_eth env0 s0 [5] [1, 2] =
      ⟨.error .ArrayLengthMismatch, s0, [], []⟩ ∧
    MultiSender.batch_send_token env0 s0 0 [5] [1] =
      ⟨.error .InvalidRecipient, s0, [], []⟩ ∧
    Multi_sender.batch_send_eth env0 s0 [5] [1, 2] = ⟨s0, [], []⟩ :=
  ⟨batch_precondition_failure_zero_state_change.1 env0 s0 [5] [1, 2]
      .ArrayLengthMismatch rfl,
   batch_precondition_failure_zero_state_change.2.1 env0 s0 0 [5] [1]
      .InvalidRecipient rfl,
   batch_precondition_failure_zero_state_change.2.2 env0 s0 [5] [1, 2]
      (.inl (by decide))⟩

/-- **C2**: for any `batch_send_eth` call passing validation and the
value-sufficiency check with `msg_value` strictly above the declared
total `Σ amounts`, the call succeeds and—whatever the per-recipient
transfer outcomes (`env` is arbitrary, so any number of them may fail)—
the final `transfer_eth` attempt is a refund of exactly
`msg_value - Σ amounts` to the sender; the refund outcome
(`env.refund_ok`, possibly `false`) is never consulted, so a failing
refund is not surfaced.  Same for the silent variant. -/
theorem batch_send_eth_refunds_exact_excess
    (env : Env) (s : MSState) (recipients amounts : List Nat)
    (hlen : recipients.length = amounts.length) (hne : recipients ≠ [])
    (hnz : ∀ a ∈ amounts, a ≠ 0) (hbound : amounts.sum < U256MOD)
    (hgt : amounts.sum < env.msg_value) :
    (MultiSender.batch_send_eth env s recipients amounts).result = .ok () ∧
    (MultiSender.batch_send_eth env s recipients amounts).transfers =
      (ethLoop env 0 (recipients.zip amounts)).2.2 ++
        [(env.msg_sender, env.msg_value - amounts.sum)] ∧
    (Multi_sender.batch_send_eth env s recipients amounts).transfers =
      (ethLoop env 0 (recipients.zip amounts)).2.2 ++
        [(env.msg_sender, env.msg_value - amounts.sum)] := by
  have hsum : sumAmounts amounts 0 = .ok amounts.sum := by
    simpa using sumAmounts_eq_sum amounts 0 hnz (by simpa using hbound)
  have hval : ¬ env.msg_value < amounts.sum := by omega
  have hws : wrapSub env.msg_value amounts.sum = env.msg_value - amounts.sum := by
    unfold wrapSub
    rw [if_pos (by omega)]
  have hpos : env.msg_value - amounts.sum > 0 := by omega
  rw [multiSender_eth_ok_shape env s recipients amounts amounts.sum hlen hne hsum hval,
    v2_eth_ok_shape env s recipients amounts amounts.sum hlen hne hsum hval]
  simp only [hws]
  exact ⟨trivial, if_pos hpos, if_pos hpos⟩

theorem batch_send_eth_refunds_exact_excess_witness :
    (MultiSender.batch_send_eth env0 s0 [1, 2] [3, 4]).result = .ok () ∧
    (MultiSender.batch_send_eth env0 s0 [1, 2] [3, 4]).transfers =
      (ethLoop env0 0 ([1, 2].zip [3, 4])).2.2 ++ [(env0.msg_sender, env0.msg_value - [3, 4].sum)] ∧
    (Multi_sender.batch_send_eth env0 s0 [1, 2] [3, 4]).transfers =
      (ethLoop env0 0 ([1, 2].zip [3, 4])).2.2 ++ [(env0.msg_sender, env0.msg_value - [3, 4].sum)] :=
  batch_send_eth_refunds_exact_excess env0 s0 [1, 2] [3, 4]
    rfl (by decide) (by decide) (by decide) (by decide)

/-- **C4**: every accepted batch call (one whose result is `Ok`), in ETH
or token mode, updates the statistics exactly once: `total_transactions`
grows by exactly 1, `total_recipients` by exactly the loop's
successful-transfer counter (which is at most the number of recipients),
and the sender's `user_transaction_count` by exactly 1 (stated below the
`U256` wrap thresholds, which the monotone counters cannot reach in
practice). -/
theorem stats_updated_exactly_once :
    (∀ env s recipients amounts,
      (MultiSender.batch_send_eth env s recipients amounts).result = .ok () →
      s.total_transactions + 1 < U256MOD →
      s.total_recipients + recipients.length < U256MOD →
      s.user_transaction_count env.msg_sender + 1 < U256MOD →
      (MultiSender.batch_send_eth env s recipients amounts).state.total_transactions =
        s.total_transactions + 1 ∧
      (MultiSender.batch_send_eth env s recipients amounts).state.total_recipients =
        s.total_recipients + (ethLoop env 0 (recipients.zip amounts)).1 ∧
      (ethLoop env 0 (recipients.zip amounts)).1 ≤ recipients.length ∧
      (MultiSender.batch_send_eth env s recipients amounts).state.user_transaction_count
          env.msg_sender =
        s.user_transaction_count env.msg_sender + 1) ∧
    (∀ env s token recipients amounts,
      (MultiSender.batch_send_token env s token recipients amounts).result = .ok () →
      s.total_transactions + 1 < U256MOD →
      s.total_recipients + recipients.length < U256MOD →
      s.user_transaction_count env.msg_sender + 1 < U256MOD →
      (MultiSender.batch_send_token env s token recipients amounts).state.total_transactions =
        s.total_transactions + 1 ∧
      (MultiSender.batch_send_token env s token recipients amounts).state.total_recipients =
        s.total_recipients + (tokenLoop env 0 (recipients.zip amounts)).1 ∧
      (tokenLoop env 0 (recipients.zip amounts)).1 ≤ recipients.length ∧
      (MultiSender.batch_send_token env s token recipients amounts).state.user_transaction_count
          env.msg_sender =
        s.user_transaction_count env.msg_sender + 1) := by
  constructor
  · intro env s recipients amounts hok htx hrec huser
    rcases multiSender_eth_cases env s recipients amounts with ⟨e, he⟩ | ⟨t, h1, h2, h3, h4⟩
    · rw [he] at hok
      simp at hok
    · have hle : (ethLoop env 0 (recipients.zip amounts)).1 ≤ recipients.length := by
        have := ethLoop_count_le_length env (recipients.zip amounts) 0
        rwa [List.length_zip, h1, Nat.min_self, ← h1] at this
      rw [multiSender_eth_ok_shape env s recipients amounts t h1 h2 h3 h4]
      refine ⟨?_, ?_, hle, ?_⟩
      · exact Nat.mod_eq_of_lt htx
      · exact Nat.mod_eq_of_lt (by omega)
      · simp only [updateStats, wrapAdd]
        rw [if_pos trivial]
        exact Nat.mod_eq_of_lt huser
  · intro env s token recipients amounts hok htx hrec huser
    rcases multiSender_token_cases env s token recipients amounts with
      ⟨e, he⟩ | ⟨t, h1, h2, h5, h3⟩
    · rw [he] at hok
      simp at hok
    · have hle : (tokenLoop env 0 (recipients.zip amounts)).1 ≤ recipients.length := by
        have := tokenLoop_count_le_length env (recipients.zip amounts) 0
        rwa [List.length_zip, h1, Nat.min_self, ← h1] at this
      rw [multiSender_token_ok_shape env s token recipients amounts t h1 h2 h5 h3]
      refine ⟨?_, ?_, hle, ?_⟩
      · exact Nat.mod_eq_of_lt htx
      · exact Nat.mod_eq_of_lt (by omega)
      · simp only [updateStats, wrapAdd]
        rw [if_pos trivial]
        exact Nat.mod_eq_of_lt huser

theorem stats_updated_exactly_once_witness :
    ((MultiSender.batch_send_eth env0 s0 [1, 2] [3, 4]).state.total_transactions =
        s0.total_transactions + 1 ∧
      (MultiSender.batch_send_eth env0 s0 [1, 2] [3, 4]).state.total_recipients =
        s0.total_recipients + (ethLoop env0 0 ([1, 2].zip [3, 4])).1 ∧
      (ethLoop env0 0 ([1, 2].zip [3, 4])).1 ≤ [1, 2].length ∧
      (MultiSender.batch_send_eth env0 s0 [1, 2] [3, 4]).state.user_transaction_count
          env0.msg_sender =
        s0.user_transaction_count env0.msg_sender + 1) ∧
    ((MultiSender.batch_send_token env0 s0 9 [1, 2] [3, 4]).state.total_transactions =
        s0.total_transactions + 1 ∧
      (MultiSender.batch_send_token env0 s0 9 [1, 2] [3, 4]).state.total_recipients =
        s0.total_recipients + (tokenLoop env0 0 ([1, 2].zip [3, 4])).1 ∧
      (tokenLoop env0 0 ([1, 2].zip [3, 4])).1 ≤ [1, 2].length ∧
      (MultiSender.batch_send_token env0 s0 9 [1, 2] [3, 4]).state.user_transaction_count
          env0.msg_sender =
        s0.user_transaction_count env0.msg_sender + 1) :=
  ⟨stats_updated_exactly_once.1 env0 s0 [1, 2] [3, 4] rfl (by decide) (by decide) (by decide),
   stats_updated_exactly_once.2 env0 s0 9 [1, 2] [3, 4] rfl (by decide) (by decide) (by decide)⟩

/-- **C6**: in both transfer loops, an entry whose recipient is the null
address yields exactly the `TransferFailed(..., "Invalid recipient
address")` outcome at its position (hence never a `Success`), never
appears among the attempted value movements, never contributes to the
success counter (the counter counts exactly the non-null successful
entries), and the loop still processes every entry (one outcome per
entry). -/
theorem null_recipient_always_failure :
    (∀ env i pairs k a, pairs.get? k = some (0, a) →
      (ethLoop env i pairs).2.1.get? k =
        some (.TransferFailed 0 a "Invalid recipient address")) ∧
    (∀ env i pairs p, p ∈ (ethLoop env i pairs).2.2 → p.1 ≠ 0) ∧
    (∀ env i pairs, (ethLoop env i pairs).1 = ethSuccCount env i pairs % U32MOD) ∧
    (∀ env i pairs, (ethLoop env i pairs).2.1.length = pairs.length) ∧
    (∀ env i pairs k a, pairs.get? k = some (0, a) →
      (tokenLoop env i pairs).2.1.get? k =
        some (.TransferFailed 0 a "Invalid recipient address")) ∧
    (∀ env i pairs p, p ∈ (tokenLoop env i pairs).2.2 → p.1 ≠ 0) ∧
    (∀ env i pairs, (tokenLoop env i pairs).1 = tokenSuccCount env i pairs % U32MOD) ∧
    (∀ env i pairs, (tokenLoop env i pairs).2.1.length = pairs.length) := by
  refine ⟨?_, fun env i pairs => ethLoop_transfers_ne_zero env pairs i,
    fun env i pairs => ethLoop_count_eq env pairs i,
    fun env i pairs => ethLoop_events_length env pairs i, ?_,
    fun env i pairs => tokenLoop_calls_ne_zero env pairs i,
    fun env i pairs => tokenLoop_count_eq env pairs i,
    fun env i pairs => tokenLoop_events_length env pairs i⟩
  · intro env i pairs k a h
    rw [ethLoop_events_get env pairs i k 0 a h]
    simp [ethEventAt]
  · intro env i pairs k a h
    rw [tokenLoop_events_get env pairs i k 0 a h]
    simp [tokenEventAt]

theorem null_recipient_always_failure_witness :
    (ethLoop env0 0 [(5, 10), (0, 20)]).2.1.get? 1 =
      some (.TransferFailed 0 20 "Invalid recipient address") ∧
    (tokenLoop env0 0 [(5, 10), (0, 20)]).2.1.get? 1 =
      some (.TransferFailed 0 20 "Invalid recipient address") :=
  ⟨null_recipient_always_failure.1 env0 0 [(5, 10), (0, 20)] 1 20 rfl,
   null_recipient_always_failure.2.2.2.2.1 env0 0 [(5, 10), (0, 20)] 1 20 rfl⟩

/-- **C7**: in the token loop, every non-null recipient's remote
`transferFrom` response is classified into exactly one outcome at that
entry's position — failing remote call ⇒ `Failure{call-failed}`,
undecodable returned bytes ⇒ `Failure{decode-failed}`, decoded `false` ⇒
`Failure{non-true-return}`, decoded `true` ⇒ `Success` — the success
counter counts exactly the decoded-`true` entries, and no classification
aborts the batch: a validated `batch_send_token` call returns `Ok` for
every environment. -/
theorem token_response_classification :
    (∀ env i pairs k r a, pairs.get? k = some (r, a) → r ≠ 0 →
      (env.call_contract (i + k) = none →
        (tokenLoop env i pairs).2.1.get? k =
          some (.TransferFailed r a "Token contract call failed")) ∧
      (∀ bytes, env.call_contract (i + k) = some bytes →
        (abi_decode_bool bytes = none →
          (tokenLoop env i pairs).2.1.get? k =
            some (.TransferFailed r a "Failed to decode transfer result")) ∧
        (abi_decode_bool bytes = some false →
          (tokenLoop env i pairs).2.1.get? k =
            some (.TransferFailed r a "Token transfer returned false")) ∧
        (abi_decode_bool bytes = some true →
          (tokenLoop env i pairs).2.1.get? k = some (.TransferSuccess r a)))) ∧
    (∀ env i pairs, (tokenLoop env i pairs).1 = tokenSuccCount env i pairs % U32MOD) ∧
    (∀ env s token recipients amounts t,
      recipients.length = amounts.length → recipients ≠ [] → token ≠ 0 →
      sumAmounts amounts 0 = .ok t →
      (MultiSender.batch_send_token env s token recipients amounts).result = .ok ()) := by
  refine ⟨?_, fun env i pairs => tokenLoop_count_eq env pairs i, ?_⟩
  · intro env i pairs k r a h hr
    have hev := tokenLoop_events_get env pairs i k r a h
    refine ⟨?_, ?_⟩
    · intro hc
      rw [hev]
      simp [tokenEventAt, hr, hc]
    · intro bytes hc
      refine ⟨?_, ?_, ?_⟩ <;> intro hd <;> rw [hev] <;> simp [tokenEventAt, hr, hc, hd]
  · intro env s token recipients amounts t hlen hne htok hsum
    rw [multiSender_token_ok_shape env s token recipients amounts t hlen hne htok hsum]

theorem token_response_classification_witness :
    (tokenLoop env0 0 [(5, 1), (6, 2), (7, 3), (8, 4)]).2.1.get? 3 =
      some (.TransferFailed 8 4 "Token contract call failed") ∧
    (tokenLoop env0 0 [(5, 1), (6, 2), (7, 3), (8, 4)]).2.1.get? 2 =
      some (.TransferFailed 7 3 "Failed to decode transfer result") ∧
    (tokenLoop env0 0 [(5, 1), (6, 2), (7, 3), (8, 4)]).2.1.get? 1 =
      some (.TransferFailed 6 2 "Token transfer returned false") ∧
    (tokenLoop env0 0 [(5, 1), (6, 2), (7, 3), (8, 4)]).2.1.get? 0 =
      some (.TransferSuccess 5 1) ∧
    (MultiSender.batch_send_token env0 s0 9 [5, 6, 7, 8] [1, 2, 3, 4]).result = .ok () :=
  ⟨(token_response_classification.1 env0 0 [(5, 1), (6, 2), (7, 3), (8, 4)] 3 8 4
      rfl (by decide)).1 (by decide),
   ((token_response_classification.1 env0 0 [(5, 1), (6, 2), (7, 3), (8, 4)] 2 7 3
      rfl (by decide)).2 [7, 7] (by decide)).1 (by decide),
   ((token_response_classification.1 env0 0 [(5, 1), (6, 2), (7, 3), (8, 4)] 1 6 2
      rfl (by decide)).2 (abiWord 0) (by decide)).2.1 (by decide),
   ((token_response_classification.1 env0 0 [(5, 1), (6, 2), (7, 3), (8, 4)] 0 5 1
      rfl (by decide)).2 (abiWord 1) (by decide)).2.2 (by decide),
   token_response_classification.2.2 env0 s0 9 [5, 6, 7, 8] [1, 2, 3, 4] 10
     rfl (by decide) (by decide) rfl⟩

/-- **C9**: `emergency_withdraw` invoked by a non-owner is rejected with
all state unchanged and no transfer attempted (typed variant:
`UnauthorizedAccount` error; silent variant: silent return); invoked by
the owner, its only transfer attempt is the contract's entire held
balance to the owner — `[(owner, balance)]` when the balance is positive,
no attempt at all otherwise — never a partial amount. -/
theorem emergency_withdraw_owner_gated :
    (∀ env s, env.msg_sender ≠ s.owner →
      MultiSender.emergency_withdraw env s =
        ⟨.error (.UnauthorizedAccount env.msg_sender), s, [], []⟩) ∧
    (∀ env s, env.msg_sender = s.owner →
      (MultiSender.emergency_withdraw env s).result = .ok () ∧
      (MultiSender.emergency_withdraw env s).state = s ∧
      (MultiSender.emergency_withdraw env s).transfers =
        (if env.contract_balance > 0 then [(s.owner, env.contract_balance)] else [])) ∧
    (∀ env s, env.msg_sender ≠ s.owner →
      Multi_sender.emergency_withdraw env s = ⟨s, [], []⟩) ∧
    (∀ env s, env.msg_sender = s.owner →
      (Multi_sender.emergency_withdraw env s).state = s ∧
      (Multi_sender.emergency_withdraw env s).transfers =
        (if env.contract_balance > 0 then [(s.owner, env.contract_balance)] else [])) := by
  refine ⟨?_, ?_, ?_, ?_⟩
  · intro env s h
    unfold MultiSender.emergency_withdraw
    rw [if_pos h]
  · intro env s h
    unfold MultiSender.emergency_withdraw
    rw [if_neg (not_not.mpr h)]
    by_cases hb : env.contract_balance > 0
    · rw [if_pos hb, if_pos hb]
      exact ⟨rfl, rfl, rfl⟩
    · rw [if_neg hb, if_neg hb]
      exact ⟨rfl, rfl, rfl⟩
  · intro env s h
    unfold Multi_sender.emergency_withdraw
    rw [if_pos h]
  · intro env s h
    unfold Multi_sender.emergency_withdraw
    rw [if_neg (not_not.mpr h)]
    by_cases hb : env.contract_balance > 0
    · rw [if_pos hb, if_pos hb]
      exact ⟨rfl, rfl⟩
    · rw [if_neg hb, if_neg hb]
      exact ⟨rfl, rfl⟩

theorem emergency_withdraw_owner_gated_witness :
    MultiSender.emergency_withdraw env0 s0 =
      ⟨.error (.UnauthorizedAccount env0.msg_sender), s0, [], []⟩ ∧
    ((MultiSender.emergency_withdraw env1 s0).result = .ok () ∧
      (MultiSender.emergency_withdraw env1 s0).state = s0 ∧
      (MultiSender.emergency_withdraw env1 s0).transfers =
        (if env1.contract_balance > 0 then [(s0.owner, env1.contract_balance)] else [])) ∧
    Multi_sender.emergency_withdraw env0 s0 = ⟨s0, [], []⟩ ∧
    ((Multi_sender.emergency_withdraw env1 s0).state = s0 ∧
      (Multi_sender.emergency_withdraw env1 s0).transfers =
        (if env1.contract_balance > 0 then [(s0.owner, env1.contract_balance)] else [])) :=
  ⟨emergency_withdraw_owner_gated.1 env0 s0 (by decide),
   emergency_withdraw_owner_gated.2.1 env1 s0 (by decide),
   emergency_withdraw_owner_gated.2.2.1 env0 s0 (by decide),
   emergency_withdraw_owner_gated.2.2.2 env1 s0 (by decide)⟩

/-- **C10**: the refund subtraction `msg_value - total_amount` is only
reached after the insufficiency guard has established
`total_amount ≤ msg_value`, so the wrapping subtraction's underflow
branch is unreachable there: it coincides with the truncated natural
subtraction, and the refund attempt recorded by either variant is the
plain difference `msg_value - t`. -/
theorem refund_subtraction_no_underflow
    (env : Env) (s : MSState) (recipients amounts : List Nat) (t : Nat)
    (hlen : recipients.length = amounts.length) (hne : recipients ≠ [])
    (hsum : sumAmounts amounts 0 = .ok t) (hval : ¬ env.msg_value < t) :
    t ≤ env.msg_value ∧
    wrapSub env.msg_value t = env.msg_value - t ∧
    (MultiSender.batch_send_eth env s recipients amounts).transfers =
      ((ethLoop env 0 (recipients.zip amounts)).2.2 ++
        if env.msg_value - t > 0 then [(env.msg_sender, env.msg_value - t)] else []) ∧
    (Multi_sender.batch_send_eth env s recipients amounts).transfers =
      ((ethLoop env 0 (recipients.zip amounts)).2.2 ++
        if env.msg_value - t > 0 then [(env.msg_sender, env.msg_value - t)] else []) := by
  have hle : t ≤ env.msg_value := by omega
  have hws : wrapSub env.msg_value t = env.msg_value - t := by
    unfold wrapSub
    rw [if_pos hle]
  rw [multiSender_eth_ok_shape env s recipients amounts t hlen hne hsum hval,
    v2_eth_ok_shape env s recipients amounts t hlen hne hsum hval]
  simp only [hws]
  refine ⟨hle, trivial, ?_, ?_⟩ <;>
    · by_cases hpos : env.msg_value - t > 0
      · rw [if_pos hpos, if_pos hpos]
      · rw [if_neg hpos, if_neg hpos, List.append_nil]

theorem refund_subtraction_no_underflow_witness :
    90 ≤ env0.msg_value ∧
    wrapSub env0.msg_value 90 = env0.msg_value - 90 ∧
    (MultiSender.batch_send_eth env0 s0 [1, 2] [50, 40]).transfers =
      ((ethLoop env0 0 ([1, 2].zip [50, 40])).2.2 ++
        if env0.msg_value - 90 > 0 then [(env0.msg_sender, env0.msg_value - 90)] else []) ∧
    (Multi_sender.batch_send_eth env0 s0 [1, 2] [50, 40]).transfers =
      ((ethLoop env0 0 ([1, 2].zip [50, 40])).2.2 ++
        if env0.msg_value - 90 > 0 then [(env0.msg_sender, env0.msg_value - 90)] else []) := by
  exact refund_subtraction_no_underflow env0 s0 [1, 2] [50, 40] 90
    rfl (by decide) rfl (by decide)

/-- **C8**: a zero amount anywhere in the input rejects the whole call
before any transfer, event or state change, in both modes and both
variants; when the arrays are otherwise well-formed (equal lengths,
non-empty recipients, and in token mode a non-null token) the surfaced
error of the typed variant is exactly `InvalidAmount`. -/
theorem zero_amount_rejects_batch :
    (∀ env s recipients amounts, 0 ∈ amounts →
      (∃ e, MultiSender.batch_send_eth env s recipients amounts = ⟨.error e, s, [], []⟩) ∧
      (recipients.length = amounts.length → recipients ≠ [] →
        MultiSender.batch_send_eth env s recipients amounts =
          ⟨.error .InvalidAmount, s, [], []⟩)) ∧
    (∀ env s token recipients amounts, 0 ∈ amounts →
      (∃ e, MultiSender.batch_send_token env s token recipients amounts =
        ⟨.error e, s, [], []⟩) ∧
      (recipients.length = amounts.length → recipients ≠ [] → token ≠ 0 →
        MultiSender.batch_send_token env s token recipients amounts =
          ⟨.error .InvalidAmount, s, [], []⟩)) ∧
    (∀ env s recipients amounts, 0 ∈ amounts →
      Multi_sender.batch_send_eth env s recipients amounts = ⟨s, [], []⟩) := by
  refine ⟨?_, ?_, ?_⟩
  · intro env s recipients amounts hz
    have herr := sumAmounts_error_of_mem_zero amounts hz 0
    constructor
    · rcases multiSender_eth_cases env s recipients amounts with ⟨e, he⟩ | ⟨t, _, _, h3, _⟩
      · exact ⟨e, he⟩
      · rw [herr] at h3
        cases h3
    · intro hlen hne
      unfold MultiSender.batch_send_eth
      rw [if_neg (not_ne_iff.mpr hlen), if_neg (by simp [List.isEmpty_iff, hne])]
      simp only [herr]
  · intro env s token recipients amounts hz
    have herr := sumAmounts_error_of_mem_zero amounts hz 0
    constructor
    · rcases multiSender_token_cases env s token recipients amounts with
        ⟨e, he⟩ | ⟨t, _, _, _, h3⟩
      · exact ⟨e, he⟩
      · rw [herr] at h3
        cases h3
    · intro hlen hne htok
      unfold MultiSender.batch_send_token
      rw [if_neg (not_ne_iff.mpr hlen), if_neg (by simp [List.isEmpty_iff, hne]),
        if_neg htok]
      simp only [herr]
  · intro env s recipients amounts hz
    exact v2_eth_noop env s recipients amounts
      (.inr (.inr (.inl ⟨.InvalidAmount, sumAmounts_error_of_mem_zero amounts hz 0⟩)))

theorem zero_amount_rejects_batch_witness :
    MultiSender.batch_send_eth env0 s0 [3, 4] [5, 0] =
      ⟨.error .InvalidAmount, s0, [], []⟩ ∧
    MultiSender.batch_send_token env0 s0 9 [3, 4] [5, 0] =
      ⟨.error .InvalidAmount, s0, [], []⟩ ∧
    Multi_sender.batch_send_eth env0 s0 [3, 4] [5, 0] = ⟨s0, [], []⟩ :=
  ⟨(zero_amount_rejects_batch.1 env0 s0 [3, 4] [5, 0] (by decide)).2 rfl (by decide),
   (zero_amount_rejects_batch.2.1 env0 s0 9 [3, 4] [5, 0] (by decide)).2 rfl
     (by decide) (by decide),
   zero_amount_rejects_batch.2.2 env0 s0 [3, 4] [5, 0] (by decide)⟩
